import Mathlib

/-!
Shallow embedding of the air-crash dashboard's ETL-and-aggregation pipeline
(`air.py`): the loader (column-name normalization, null filling, month mapping,
date derivation, decade binning, duplicate removal), the sidebar filter, and the
five aggregate queries, together with theorems checking the specification's
claims about them.

Pandas conventions reflected by the embedding: numeric columns are
post-`to_numeric` integer values with NaN modelled as `none` (the dataset's
numeric cells are integral); `groupby` excludes null keys and sorts group keys
ascending; `Series.sum()` over an empty or all-null group is `0`, never null;
grouping by the `pd.cut` categorical column uses pandas' default
`observed = False`, so every category forms a group, in categorical order;
`Series.nlargest(5)` is a stable descending sort by value followed by
truncation to five. Strings are compared by code points, as Python does;
`str.strip` removes Python's full Unicode whitespace set, and `str.lower` is
modelled on the ASCII letters (Unicode lowercase mappings never produce
whitespace, parentheses, slashes or uppercase output, so this does not affect
the properties stated here; the source's column names are ASCII).
-/

namespace AirCrash

/-- Whitespace characters removed by Python's `str.strip`: the full Unicode
whitespace set of `str.isspace` — the ASCII control whitespace U+0009..U+000D,
the separators U+001C..U+001F, space, NEL U+0085, NBSP U+00A0, Ogham space
U+1680, the typographic spaces U+2000..U+200A, the line and paragraph
separators U+2028 and U+2029, narrow NBSP U+202F, medium mathematical space
U+205F, and ideographic space U+3000. -/
def isPyWS (c : Char) : Bool :=
  decide ((9 ≤ c.toNat ∧ c.toNat ≤ 13) ∨ (28 ≤ c.toNat ∧ c.toNat ≤ 32) ∨
    c.toNat = 133 ∨ c.toNat = 160 ∨ c.toNat = 5760 ∨
    (8192 ≤ c.toNat ∧ c.toNat ≤ 8202) ∨ c.toNat = 8232 ∨ c.toNat = 8233 ∨
    c.toNat = 8239 ∨ c.toNat = 8287 ∨ c.toNat = 12288)

/-- Python `str.strip`: remove leading and trailing whitespace. -/
def pyStrip (l : List Char) : List Char :=
  ((l.dropWhile isPyWS).reverse.dropWhile isPyWS).reverse

/-- Python `str.lower` on the ASCII letters (column names are ASCII). -/
def lowerChar (c : Char) : Char :=
  if 65 ≤ c.toNat ∧ c.toNat ≤ 90 then Char.ofNat (c.toNat + 32) else c

/-- `str.replace(" ", "_")`, per character. -/
def spaceToUnderscore (c : Char) : Char := if c == ' ' then '_' else c

/-- `str.replace("/", "_")`, per character. -/
def slashToUnderscore (c : Char) : Char := if c == '/' then '_' else c

/-- The column-name cleaning chain of `load_data`, on the character list:
strip, lowercase, spaces to underscores, remove "(" then ")", slash to
underscore, in the source's order. -/
def normChars (l : List Char) : List Char :=
  ((((((pyStrip l).map lowerChar).map spaceToUnderscore).filter
      (fun c => c != '(')).filter (fun c => c != ')')).map slashToUnderscore)

/-- Column-name normalization applied to one column name. -/
def normalizeColName (s : String) : String :=
  String.mk (normChars s.data)

/-- The month-name dictionary from `load_data`, in source order (note the
"Feburary" misspelling alongside the correct "February"). -/
def month_map : List (String × Nat) :=
  [("January", 1), ("Feburary", 2), ("February", 2), ("March", 3), ("April", 4),
   ("May", 5), ("June", 6), ("July", 7), ("August", 8), ("September", 9),
   ("October", 10), ("November", 11), ("December", 12)]

/-- `Series.map(month_map)`: dictionary lookup; keys absent from the
dictionary give null. -/
def monthMap (s : String) : Option Nat :=
  (month_map.find? (fun p => p.1 == s)).map Prod.snd

/-- Calendar month names, January through December (the `reindex` target list
in the monthly aggregate, and the range of `Series.dt.month_name()`). -/
def monthNamesCal : List String :=
  ["January", "February", "March", "April", "May", "June",
   "July", "August", "September", "October", "November", "December"]

/-- Month name of month number `m` (1 to 12), as `dt.month_name()` yields. -/
def monthNameOf (m : Nat) : String := monthNamesCal.getD (m - 1) ""

/-- The fixed decade-bin boundaries of `load_data`. -/
def binBoundaries : List Int :=
  [1908, 1920, 1932, 1944, 1956, 1968, 1980, 1992, 2004, 2016, 2020, 2024]

/-- The fixed 11 decade-bin labels of `load_data`, in source order. -/
def binLabels : List String :=
  ["Early 1910s", "Mid 1920s", "Late 1930s", "Early 1940s",
   "Mid 1950s", "Late 1960s", "Early 1970s", "Late 1980s",
   "Early 2000s", "Mid 2010s", "Early 2020s"]

/-- The right-closed interval lookup underlying `pd.cut` with its default
`right = True`: label `i` covers `boundary i < y ≤ boundary (i+1)`. -/
def cutAux (y : Int) : List Int → List String → Option String
  | lo :: hi :: bs, lab :: labs =>
      if lo < y ∧ y ≤ hi then some lab else cutAux y (hi :: bs) labs
  | _, _ => none

/-- `pd.cut(year, bins, labels, include_lowest = True)`: right-closed bins,
with the lowest boundary 1908 included in the first bin; years outside every
bin give null. -/
def yearBin (y : Int) : Option String :=
  if y = 1908 then binLabels.head? else cutAux y binBoundaries binLabels

/-- Representable range of `pd.Timestamp` for a date (year, month, day = 1):
`pd.to_datetime(errors = coerce)` nulls anything outside
1677-09-21 ... 2262-04-11, and any month outside 1..12. -/
def tsOk (y : Int) (m : Nat) : Bool :=
  decide ((1 ≤ m ∧ m ≤ 12) ∧
    ((1677 < y ∧ y < 2262) ∨ (y = 1677 ∧ 10 ≤ m) ∨ (y = 2262 ∧ m ≤ 4)))

/-- A source row after CSV parsing and the numeric coercions of `load_data`:
every cell nullable; numeric columns already `to_numeric`-coerced (null for
unparseable or absent values). -/
structure RawRow where
  country_region : Option String
  operator : Option String
  aircraft_manufacturer : Option String
  year : Option Int
  day : Option Int
  abroad : Option Int
  fatalities_air : Option Int
  ground : Option Int
  quarter : Option String
  month : Option String
deriving DecidableEq, Repr

/-- A row of the canonical table produced by `load_data`. -/
structure Row where
  country_region : Option String
  operator : Option String
  aircraft_manufacturer : Option String
  year : Option Int
  day : Option Int
  abroad : Option Int
  fatalities_air : Option Int
  ground : Option Int
  quarter : Option String
  month : Option String
  month_num : Option Nat
  month_date : Option (Int × Nat)
  month_name : Option String
  year_bin : Option String
deriving DecidableEq, Repr

/-- The per-row transformations of `load_data`: fill the three string fields
with "Unknown" (`fillna`), map the month name through `month_map`, build the
date (year, month_num, day = 1) with coercion to null, derive the month name
from the date, and bin the year with `pd.cut`. -/
def processRow (r : RawRow) : Row :=
  let mnum := r.month.bind monthMap
  let mdate : Option (Int × Nat) :=
    match r.year, mnum with
    | some y, some m => if tsOk y m then some (y, m) else none
    | _, _ => none
  { country_region := some (r.country_region.getD "Unknown")
    operator := some (r.operator.getD "Unknown")
    aircraft_manufacturer := some (r.aircraft_manufacturer.getD "Unknown")
    year := r.year
    day := r.day
    abroad := r.abroad
    fatalities_air := r.fatalities_air
    ground := r.ground
    quarter := r.quarter
    month := r.month
    month_num := mnum
    month_date := mdate
    month_name := mdate.map (fun p => monthNameOf p.2)
    year_bin := r.year.bind yearBin }

/-- `drop_duplicates` keeping the first occurrence (seen-set accumulator). -/
def ddAux {α : Type} [DecidableEq α] : List α → List α → List α
  | [], _ => []
  | x :: xs, seen => if x ∈ seen then ddAux xs seen else x :: ddAux xs (x :: seen)

/-- `DataFrame.drop_duplicates()`: exact duplicate rows collapse to their
first occurrence; the order of survivors is preserved. -/
def dropDuplicates {α : Type} [DecidableEq α] (l : List α) : List α := ddAux l []

/-- `load_data`: normalize each row, then drop exact duplicates. -/
def load_data (raw : List RawRow) : List Row :=
  dropDuplicates (raw.map processRow)

/-- The user's sidebar selections: allowed values per filterable field. An
empty list stands for "nothing selected" (the code skips the `isin` filter
then), which is also how an absent `quarter` column behaves, since no values
can be selected for it. -/
structure Predicates where
  year : List Int
  quarter : List String
  month : List String
deriving Repr

/-- `Series.isin(selected)` guarded by "skip the filter when nothing is
selected": with an empty selection every row passes; otherwise a row passes
iff its cell is non-null and among the selected values. -/
def matchesField {α : Type} [DecidableEq α] (sel : List α) (v : Option α) : Bool :=
  sel.isEmpty || (match v with | some x => decide (x ∈ sel) | none => false)

/-- Conjunction of the three per-field conditions. -/
def rowMatches (p : Predicates) (r : Row) : Bool :=
  matchesField p.year r.year && matchesField p.quarter r.quarter &&
    matchesField p.month r.month

/-- The filter loop of the app: one `isin` filter per field, applied in
sequence to the canonical table. -/
def filtered_df (t : List Row) (p : Predicates) : List Row :=
  ((t.filter (fun r => matchesField p.year r.year)).filter
      (fun r => matchesField p.quarter r.quarter)).filter
      (fun r => matchesField p.month r.month)

/-- `Series.sum()` of the fatalities column with pandas' `skipna`: null cells
contribute nothing; the sum of an empty selection is 0. -/
def sumFat (rows : List Row) : Int :=
  (rows.map (fun r => r.fatalities_air.getD 0)).sum

/-- Ascending insertion by a boolean comparison (group keys of `groupby` come
out sorted ascending). -/
def insertAscBy {κ : Type} (le : κ → κ → Bool) (k : κ) : List κ → List κ
  | [] => [k]
  | x :: xs => if le k x then k :: x :: xs else x :: insertAscBy le k xs

/-- Ascending insertion sort by a boolean comparison. -/
def sortAscBy {κ : Type} (le : κ → κ → Bool) : List κ → List κ
  | [] => []
  | x :: xs => insertAscBy le x (sortAscBy le xs)

/-- Integer comparison, for sorting year group keys. -/
def intLe (a b : Int) : Bool := decide (a ≤ b)

/-- Code-point comparison of strings, as Python compares them. -/
def strLeAux : List Char → List Char → Bool
  | [], _ => true
  | _ :: _, [] => false
  | a :: as, b :: bs => if a = b then strLeAux as bs else decide (a < b)

/-- String comparison, for sorting string group keys. -/
def strLe (a b : String) : Bool := strLeAux a.data b.data

/-- `groupby(key)["fatalities_air"].sum()`: the distinct non-null keys in
ascending order, each with its group's fatality sum. Null keys are dropped
(pandas' `dropna = True`). -/
def groupSum {κ : Type} [DecidableEq κ] (le : κ → κ → Bool)
    (key : Row → Option κ) (rows : List Row) : List (κ × Int) :=
  (sortAscBy le (dropDuplicates (rows.filterMap key))).map
    (fun k => (k, sumFat (rows.filter (fun r => decide (key r = some k)))))

/-- Descending insertion by the value component, placing the inserted element
before elements of equal value (so earlier elements stay first: stability). -/
def insertDescBySnd {κ : Type} (x : κ × Int) : List (κ × Int) → List (κ × Int)
  | [] => [x]
  | y :: ys => if y.2 ≤ x.2 then x :: y :: ys else y :: insertDescBySnd x ys

/-- Stable descending sort by the value component. -/
def sortDescBySnd {κ : Type} : List (κ × Int) → List (κ × Int)
  | [] => []
  | x :: xs => insertDescBySnd x (sortDescBySnd xs)

/-- `Series.nlargest(5)`: stable descending sort by value, then take 5. -/
def nlargest5 {κ : Type} (l : List (κ × Int)) : List (κ × Int) :=
  (sortDescBySnd l).take 5

/-- Top 5 years by total fatalities (`crashes_per_year` in the source). -/
def crashes_per_year (rows : List Row) : List (Int × Int) :=
  nlargest5 (groupSum intLe (fun r => r.year) rows)

/-- Top 5 countries by total fatalities (`top_countries` in the source). -/
def top_countries (rows : List Row) : List (String × Int) :=
  nlargest5 (groupSum strLe (fun r => r.country_region) rows)

/-- Top 5 manufacturers by total fatalities (`top_manufacturers`). -/
def top_manufacturers (rows : List Row) : List (String × Int) :=
  nlargest5 (groupSum strLe (fun r => r.aircraft_manufacturer) rows)

/-- `dropna()` on (key, value) result rows: keep exactly the rows whose value
is present. -/
def dropnaPairs {κ : Type} (l : List (κ × Option Int)) : List (κ × Int) :=
  l.filterMap (fun p => p.2.map (fun v => (p.1, v)))

/-- `reindex` onto the calendar month order: look every calendar month up in
the grouped sums; a month with no group gets a null value. -/
def reindexCal (g : List (String × Int)) : List (String × Option Int) :=
  monthNamesCal.map (fun m => (m, (g.find? (fun p => p.1 == m)).map Prod.snd))

/-- Monthly totals (`monthly_fatalities` in the source): group by
`month_name`, sum, reindex to calendar order, `dropna()`. -/
def monthly_fatalities (rows : List Row) : List (String × Int) :=
  dropnaPairs (reindexCal (groupSum strLe (fun r => r.month_name) rows))

/-- Decade totals (`decade_counts` in the source): grouping by the `pd.cut`
categorical uses pandas' default `observed = False`, so every one of the 11
bin labels forms a group, in categorical (label-list) order; `sum()` yields 0
(not NaN) for an empty group, so the value column the trailing `dropna()`
sees is all-present. -/
def decade_counts (rows : List Row) : List (String × Int) :=
  dropnaPairs (binLabels.map (fun lab =>
    (lab, some (sumFat (rows.filter (fun r => decide (r.year_bin = some lab)))))))

/-- The decade-binning rule in the specification's words: label `i` covers
`boundary i < year ≤ boundary (i+1)`, the lowest boundary 1908 inclusive,
null outside 1908..2024 (refinement counterpart of `yearBin`). -/
def yearBinSpecRule (y : Int) : Option String :=
  if 1908 ≤ y ∧ y ≤ 1920 then some "Early 1910s"
  else if 1920 < y ∧ y ≤ 1932 then some "Mid 1920s"
  else if 1932 < y ∧ y ≤ 1944 then some "Late 1930s"
  else if 1944 < y ∧ y ≤ 1956 then some "Early 1940s"
  else if 1956 < y ∧ y ≤ 1968 then some "Mid 1950s"
  else if 1968 < y ∧ y ≤ 1980 then some "Late 1960s"
  else if 1980 < y ∧ y ≤ 1992 then some "Early 1970s"
  else if 1992 < y ∧ y ≤ 2004 then some "Late 1980s"
  else if 2004 < y ∧ y ≤ 2016 then some "Early 2000s"
  else if 2016 < y ∧ y ≤ 2020 then some "Mid 2010s"
  else if 2020 < y ∧ y ≤ 2024 then some "Early 2020s"
  else none

/-- A raw row with the given year and fatality count (concrete test data). -/
def mkRawYF (y fat : Int) : RawRow :=
  { country_region := some "X", operator := some "O",
    aircraft_manufacturer := some "M", year := some y, day := none,
    abroad := none, fatalities_air := some fat, ground := none,
    quarter := none, month := some "January" }

/-- A raw row with the given month name and fatality count. -/
def mkRawMF (mo : String) (fat : Int) : RawRow :=
  { country_region := none, operator := none, aircraft_manufacturer := none,
    year := some 1985, day := none, abroad := none, fatalities_air := some fat,
    ground := none, quarter := none, month := some mo }

/-- A raw row with every cell null. -/
def rawAllNone : RawRow :=
  { country_region := none, operator := none, aircraft_manufacturer := none,
    year := none, day := none, abroad := none, fatalities_air := none,
    ground := none, quarter := none, month := none }

/-- A one-row canonical table: year 1985, 520 fatalities. -/
def exView : List Row := load_data [mkRawYF 1985 520]

/-- The table for the specification's top-5 example: per-year sums
1985 = 520, 1977 = 346, 2001 = 2996, 1988 = 270, 1996 = 349, 1972 = 1. -/
def exTop5 : List Row :=
  load_data [mkRawYF 1985 520, mkRawYF 1977 346, mkRawYF 2001 2996,
             mkRawYF 1988 270, mkRawYF 1996 349, mkRawYF 1972 1]

/-- The table for the specification's monthly example: sums present only for
October (12) and March (20 + 17 = 37). -/
def exMonths : List Row :=
  load_data [mkRawMF "October" 12, mkRawMF "March" 20, mkRawMF "March" 17]

/-- The filter selection `year ∈ {1977}`. -/
def predYear1977 : Predicates := { year := [1977], quarter := [], month := [] }

end AirCrash

namespace AirCrash

lemma lowerChar_eq_of_upper {c : Char} (h : 65 ≤ c.toNat ∧ c.toNat ≤ 90) :
    lowerChar c = Char.ofNat (c.toNat + 32) := by
  unfold lowerChar; rw [if_pos h]

lemma lowerChar_eq_of_not_upper {c : Char} (h : ¬(65 ≤ c.toNat ∧ c.toNat ≤ 90)) :
    lowerChar c = c := by
  unfold lowerChar; rw [if_neg h]

lemma lowerChar_case (c : Char) :
    lowerChar c = c ∨
      (lowerChar (lowerChar c) = lowerChar c ∧ isPyWS (lowerChar c) = false ∧
       lowerChar c ≠ ' ' ∧ lowerChar c ≠ '(' ∧ lowerChar c ≠ ')' ∧
       lowerChar c ≠ '/') := by
  by_cases h : 65 ≤ c.toNat ∧ c.toNat ≤ 90
  · right
    rw [lowerChar_eq_of_upper h]
    obtain ⟨h1, h2⟩ := h
    revert h1 h2
    generalize c.toNat = n
    intro h1 h2
    interval_cases n <;>
      exact ⟨by decide, by decide, by decide, by decide, by decide, by decide⟩
  · left; exact lowerChar_eq_of_not_upper h

lemma dropWhile_eq_self_of_none {p : Char → Bool} {l : List Char}
    (h : ∀ c ∈ l, p c = false) : l.dropWhile p = l := by
  cases l with
  | nil => rfl
  | cons x xs =>
      rw [List.dropWhile_cons, if_neg (by simp [h x (List.mem_cons_self _ _)])]

lemma pyStrip_eq_self {l : List Char} (h : ∀ c ∈ l, isPyWS c = false) :
    pyStrip l = l := by
  unfold pyStrip
  rw [dropWhile_eq_self_of_none h,
      dropWhile_eq_self_of_none (fun c hc => h c (List.mem_reverse.mp hc)),
      List.reverse_reverse]

lemma mem_of_mem_pyStrip {a : Char} {l : List Char} (h : a ∈ pyStrip l) :
    a ∈ l := by
  unfold pyStrip at h
  rw [List.mem_reverse] at h
  have h1 := ((List.dropWhile_sublist _).mem h)
  rw [List.mem_reverse] at h1
  exact (List.dropWhile_sublist _).mem h1

lemma map_eq_self {α : Type} {f : α → α} {l : List α} (h : ∀ a ∈ l, f a = a) :
    l.map f = l := by
  induction l with
  | nil => rfl
  | cons x xs ih =>
      simp only [List.map_cons, h x (List.mem_cons_self _ _),
        ih (fun a ha => h a (List.mem_cons_of_mem _ ha))]

lemma mem_normChars {x : Char} {l : List Char} (hx : x ∈ normChars l) :
    ∃ z ∈ pyStrip l, x = slashToUnderscore (spaceToUnderscore (lowerChar z))
      ∧ x ≠ '(' ∧ x ≠ ')' := by
  unfold normChars at hx
  rcases List.mem_map.mp hx with ⟨y, hy, rfl⟩
  rcases List.mem_filter.mp hy with ⟨hy1, hyr⟩
  rcases List.mem_filter.mp hy1 with ⟨hy2, hyl⟩
  rcases List.mem_map.mp hy2 with ⟨w, hw, rfl⟩
  rcases List.mem_map.mp hw with ⟨z, hz, rfl⟩
  refine ⟨z, hz, rfl, ?_, ?_⟩ <;>
    · simp only [bne_iff_ne, ne_eq] at hyl hyr
      unfold slashToUnderscore
      split <;> simp_all

lemma normChars_cases {x : Char} {l : List Char} (hx : x ∈ normChars l) :
    x = '_' ∨ ∃ z ∈ pyStrip l, x = lowerChar z ∧ lowerChar z ≠ ' ' ∧
      lowerChar z ≠ '/' ∧ lowerChar z ≠ '(' ∧ lowerChar z ≠ ')' := by
  rcases mem_normChars hx with ⟨z, hz, hxe, hpl, hpr⟩
  by_cases hzs : lowerChar z = ' '
  · left; rw [hxe, hzs]; decide
  · have h1 : spaceToUnderscore (lowerChar z) = lowerChar z := by
      unfold spaceToUnderscore; simp [hzs]
    by_cases hzq : lowerChar z = '/'
    · left; rw [hxe, h1, hzq]; decide
    · have h2 : slashToUnderscore (lowerChar z) = lowerChar z := by
        unfold slashToUnderscore; simp [hzq]
      right
      refine ⟨z, hz, by rw [hxe, h1, h2], hzs, hzq, ?_, ?_⟩
      · rw [hxe, h1, h2] at hpl; exact hpl
      · rw [hxe, h1, h2] at hpr; exact hpr

lemma normChars_char_props {x : Char} {l : List Char} (hx : x ∈ normChars l) :
    lowerChar x = x ∧ spaceToUnderscore x = x ∧ (x != '(') = true ∧
      (x != ')') = true ∧ slashToUnderscore x = x := by
  rcases normChars_cases hx with rfl | ⟨z, _, rfl, hs, hq, hl, hr⟩
  · exact ⟨by decide, by decide, by decide, by decide, by decide⟩
  · refine ⟨?_, ?_, ?_, ?_, ?_⟩
    · rcases lowerChar_case z with hz | ⟨hidem, _, _, _, _, _⟩
      · rw [hz]; exact hz
      · exact hidem
    · unfold spaceToUnderscore; simp [hs]
    · simpa using hl
    · simpa using hr
    · unfold slashToUnderscore; simp [hq]

lemma normChars_no_ws {l : List Char} (H : ∀ c ∈ l, isPyWS c = true → c = ' ')
    {x : Char} (hx : x ∈ normChars l) : isPyWS x = false := by
  rcases normChars_cases hx with rfl | ⟨z, hz, rfl, hs, _, _, _⟩
  · decide
  · rcases lowerChar_case z with hzl | ⟨_, hws, _, _, _, _⟩
    · rw [hzl]
      rw [hzl] at hs
      by_cases hzw : isPyWS z = true
      · exact absurd (H z (mem_of_mem_pyStrip hz) hzw) hs
      · simpa using hzw
    · exact hws

lemma normChars_eq_self {L : List Char}
    (hws : ∀ x ∈ L, isPyWS x = false)
    (hpr : ∀ x ∈ L, lowerChar x = x ∧ spaceToUnderscore x = x ∧
      (x != '(') = true ∧ (x != ')') = true ∧ slashToUnderscore x = x) :
    normChars L = L := by
  unfold normChars
  rw [pyStrip_eq_self hws,
      map_eq_self (fun a ha => (hpr a ha).1),
      map_eq_self (fun a ha => (hpr a ha).2.1),
      List.filter_eq_self.mpr (fun a ha => (hpr a ha).2.2.1),
      List.filter_eq_self.mpr (fun a ha => (hpr a ha).2.2.2.1)]
  exact map_eq_self (fun a ha => (hpr a ha).2.2.2.2)

lemma normChars_idem {l : List Char} (H : ∀ c ∈ l, isPyWS c = true → c = ' ') :
    normChars (normChars l) = normChars l :=
  normChars_eq_self (fun x hx => normChars_no_ws H hx)
    (fun x hx => normChars_char_props hx)

end AirCrash

namespace AirCrash

lemma mem_ddAux {α : Type} [DecidableEq α] {a : α} :
    ∀ {l seen : List α}, a ∈ ddAux l seen ↔ (a ∈ l ∧ a ∉ seen) := by
  intro l
  induction l with
  | nil => intro seen; simp [ddAux]
  | cons x xs ih =>
      intro seen
      by_cases hx : x ∈ seen
      · rw [ddAux, if_pos hx, ih]
        constructor
        · rintro ⟨h1, h2⟩; exact ⟨List.mem_cons_of_mem _ h1, h2⟩
        · rintro ⟨h1, h2⟩
          rcases List.mem_cons.mp h1 with rfl | h1'
          · exact absurd hx h2
          · exact ⟨h1', h2⟩
      · rw [ddAux, if_neg hx]
        by_cases hax : a = x
        · subst hax
          simp [List.mem_cons_self, hx]
        · rw [List.mem_cons, ih]
          constructor
          · rintro (rfl | ⟨h1, h2⟩)
            · exact absurd rfl hax
            · refine ⟨List.mem_cons_of_mem _ h1, fun hc => h2 (List.mem_cons_of_mem _ hc)⟩
          · rintro ⟨h1, h2⟩
            rcases List.mem_cons.mp h1 with rfl | h1'
            · exact absurd rfl hax
            · exact Or.inr ⟨h1', by simp [List.mem_cons, hax, h2]⟩

lemma mem_dropDuplicates {α : Type} [DecidableEq α] {a : α} {l : List α} :
    a ∈ dropDuplicates l ↔ a ∈ l := by
  unfold dropDuplicates
  rw [mem_ddAux]
  simp

lemma mem_insertAscBy {κ : Type} {le : κ → κ → Bool} {a k : κ} {l : List κ} :
    a ∈ insertAscBy le k l ↔ a = k ∨ a ∈ l := by
  induction l with
  | nil => simp [insertAscBy]
  | cons x xs ih =>
      by_cases h : le k x
      · simp [insertAscBy, h]
      · simp only [insertAscBy, if_neg h, List.mem_cons, ih]
        tauto

lemma mem_sortAscBy {κ : Type} {le : κ → κ → Bool} {a : κ} {l : List κ} :
    a ∈ sortAscBy le l ↔ a ∈ l := by
  induction l with
  | nil => simp [sortAscBy]
  | cons x xs ih => simp [sortAscBy, mem_insertAscBy, ih]

lemma mem_groupKeys {κ : Type} [DecidableEq κ] {le : κ → κ → Bool}
    {key : Row → Option κ} {rows : List Row} {k : κ} :
    k ∈ sortAscBy le (dropDuplicates (rows.filterMap key)) ↔
      ∃ r ∈ rows, key r = some k := by
  rw [mem_sortAscBy, mem_dropDuplicates, List.mem_filterMap]

lemma mem_groupSum {κ : Type} [DecidableEq κ] {le : κ → κ → Bool}
    {key : Row → Option κ} {rows : List Row} {k : κ} {v : Int} :
    (k, v) ∈ groupSum le key rows ↔
      (∃ r ∈ rows, key r = some k) ∧
        v = sumFat (rows.filter (fun r => decide (key r = some k))) := by
  unfold groupSum
  rw [List.mem_map]
  constructor
  · rintro ⟨k', hk', heq⟩
    injection heq with h1 h2
    subst h1; subst h2
    exact ⟨mem_groupKeys.mp hk', rfl⟩
  · rintro ⟨hex, rfl⟩
    exact ⟨k, mem_groupKeys.mpr hex, rfl⟩

lemma mem_insertDescBySnd {κ : Type} {a x : κ × Int} {l : List (κ × Int)} :
    a ∈ insertDescBySnd x l ↔ a = x ∨ a ∈ l := by
  induction l with
  | nil => simp [insertDescBySnd]
  | cons y ys ih =>
      by_cases h : y.2 ≤ x.2
      · simp [insertDescBySnd, h]
      · simp only [insertDescBySnd, if_neg h, List.mem_cons, ih]
        tauto

lemma mem_sortDescBySnd {κ : Type} {a : κ × Int} {l : List (κ × Int)} :
    a ∈ sortDescBySnd l ↔ a ∈ l := by
  induction l with
  | nil => simp [sortDescBySnd]
  | cons x xs ih => simp [sortDescBySnd, mem_insertDescBySnd, ih]

lemma pairwise_insertDescBySnd {κ : Type} {x : κ × Int} {l : List (κ × Int)}
    (h : l.Pairwise (fun a b => b.2 ≤ a.2)) :
    (insertDescBySnd x l).Pairwise (fun a b => b.2 ≤ a.2) := by
  induction l with
  | nil => simp [insertDescBySnd]
  | cons y ys ih =>
      rcases List.pairwise_cons.mp h with ⟨hy, hys⟩
      by_cases hc : y.2 ≤ x.2
      · rw [insertDescBySnd, if_pos hc]
        refine List.pairwise_cons.mpr ⟨?_, h⟩
        intro b hb
        rcases List.mem_cons.mp hb with rfl | hb'
        · exact hc
        · exact le_trans (hy b hb') hc
      · rw [insertDescBySnd, if_neg hc]
        refine List.pairwise_cons.mpr ⟨?_, ih hys⟩
        intro b hb
        rcases mem_insertDescBySnd.mp hb with rfl | hb'
        · exact le_of_lt (lt_of_not_le hc)
        · exact hy b hb'

lemma pairwise_sortDescBySnd {κ : Type} (l : List (κ × Int)) :
    (sortDescBySnd l).Pairwise (fun a b => b.2 ≤ a.2) := by
  induction l with
  | nil => simp [sortDescBySnd]
  | cons x xs ih => exact pairwise_insertDescBySnd ih

lemma nlargest5_length {κ : Type} (l : List (κ × Int)) :
    (nlargest5 l).length ≤ 5 :=
  List.length_take_le 5 _

lemma nlargest5_pairwise {κ : Type} (l : List (κ × Int)) :
    (nlargest5 l).Pairwise (fun a b => b.2 ≤ a.2) :=
  List.Pairwise.sublist (List.take_sublist 5 _) (pairwise_sortDescBySnd l)

lemma mem_of_mem_nlargest5 {κ : Type} {a : κ × Int} {l : List (κ × Int)}
    (h : a ∈ nlargest5 l) : a ∈ l :=
  mem_sortDescBySnd.mp (List.mem_of_mem_take h)

lemma nlargest5_min {κ : Type} {g : κ × Int} {l : List (κ × Int)}
    (hg : g ∈ l) (hout : g ∉ nlargest5 l) :
    ∀ x ∈ nlargest5 l, g.2 ≤ x.2 := by
  intro x hx
  have hsorted := pairwise_sortDescBySnd l
  have hsplit := List.take_append_drop 5 (sortDescBySnd l)
  rw [← hsplit] at hsorted
  rcases List.pairwise_append.mp hsorted with ⟨_, _, hcross⟩
  have hgs : g ∈ sortDescBySnd l := mem_sortDescBySnd.mpr hg
  rw [← hsplit] at hgs
  rcases List.mem_append.mp hgs with hgt | hgd
  · exact absurd hgt hout
  · exact hcross x hx g hgd

end AirCrash

namespace AirCrash

lemma matchesField_iff {α : Type} [DecidableEq α] (sel : List α) (v : Option α) :
    matchesField sel v = true ↔ (sel = [] ∨ ∃ x, v = some x ∧ x ∈ sel) := by
  cases v with
  | none => simp [matchesField, List.isEmpty_iff]
  | some x => simp [matchesField, List.isEmpty_iff]

lemma mem_filtered_df (t : List Row) (p : Predicates) (r : Row) :
    r ∈ filtered_df t p ↔ r ∈ t ∧ rowMatches p r = true := by
  unfold filtered_df rowMatches
  simp only [List.mem_filter, Bool.and_eq_true, and_assoc]

lemma filtered_df_eq_nil {t : List Row} {p : Predicates}
    (h : ∀ r ∈ t, rowMatches p r = false) : filtered_df t p = [] := by
  rw [List.eq_nil_iff_forall_not_mem]
  intro r hr
  rcases (mem_filtered_df t p r).mp hr with ⟨hrt, hm⟩
  rw [h r hrt] at hm
  cases hm

lemma filterMap_filter_isSome {κ : Type} (key : Row → Option κ) (l : List Row) :
    (l.filter (fun r => (key r).isSome)).filterMap key = l.filterMap key := by
  induction l with
  | nil => rfl
  | cons r rs ih =>
      cases h : key r with
      | none => simp [List.filter_cons, List.filterMap_cons, h, ih]
      | some k => simp [List.filter_cons, List.filterMap_cons, h, ih]

lemma filter_some_filter_isSome {κ : Type} [DecidableEq κ]
    (key : Row → Option κ) (k : κ) (l : List Row) :
    (l.filter (fun r => (key r).isSome)).filter
        (fun r => decide (key r = some k))
      = l.filter (fun r => decide (key r = some k)) := by
  induction l with
  | nil => rfl
  | cons r rs ih =>
      cases h : key r with
      | none => simp [List.filter_cons, h, ih]
      | some q => simp [List.filter_cons, h, ih]

lemma groupSum_filter_isSome {κ : Type} [DecidableEq κ] (le : κ → κ → Bool)
    (key : Row → Option κ) (l : List Row) :
    groupSum le key (l.filter (fun r => (key r).isSome)) = groupSum le key l := by
  unfold groupSum
  rw [filterMap_filter_isSome]
  simp only [filter_some_filter_isSome]

lemma dropnaPairs_map_some {κ : Type} (l : List κ) (f : κ → Int) :
    dropnaPairs (l.map (fun k => (k, some (f k)))) = l.map (fun k => (k, f k)) := by
  induction l with
  | nil => rfl
  | cons x xs ih =>
      simp only [dropnaPairs, List.map_cons, List.filterMap_cons] at ih ⊢
      simp only [Option.map_some']
      rw [ih]

lemma dropnaPairs_keys {κ : Type} (l : List κ) (opt : κ → Option Int) :
    (dropnaPairs (l.map (fun m => (m, opt m)))).map Prod.fst
      = l.filter (fun m => (opt m).isSome) := by
  induction l with
  | nil => rfl
  | cons m ms ih =>
      cases h : opt m with
      | none =>
          simp only [dropnaPairs, List.map_cons, List.filterMap_cons, h,
            Option.map_none', List.filter_cons, List.filterMap_map] at ih ⊢
          simp [h, ih]
      | some v =>
          simp only [dropnaPairs, List.map_cons, List.filterMap_cons, h,
            Option.map_some', List.filter_cons, List.filterMap_map] at ih ⊢
          simp [h, ih]

lemma bool_eq_of_iff {a b : Bool} (h : a = true ↔ b = true) : a = b := by
  cases a <;> cases b <;> simp_all

lemma find?_groupSum_isSome {κ : Type} [DecidableEq κ] (le : κ → κ → Bool)
    (key : Row → Option κ) (rows : List Row) (m : κ) :
    ((groupSum le key rows).find? (fun p => p.1 == m)).isSome
      = rows.any (fun r => decide (key r = some m)) := by
  apply bool_eq_of_iff
  simp only [List.find?_isSome, List.any_eq_true]
  constructor
  · rintro ⟨⟨k, v⟩, hp, hbeq⟩
    have hk : k = m := by simpa using hbeq
    subst hk
    rcases mem_groupSum.mp hp with ⟨⟨r, hr, hkey⟩, _⟩
    exact ⟨r, hr, by simpa using hkey⟩
  · rintro ⟨r, hr, hkey⟩
    refine ⟨(m, sumFat (rows.filter (fun r => decide (key r = some m)))), ?_, by simp⟩
    exact mem_groupSum.mpr ⟨⟨r, hr, by simpa using hkey⟩, rfl⟩

end AirCrash


namespace AirCrash

lemma cutAux_cons (y : Int) (lo hi : Int) (bs : List Int) (lab : String)
    (labs : List String) :
    cutAux y (lo :: hi :: bs) (lab :: labs) =
      if lo < y ∧ y ≤ hi then some lab else cutAux y (hi :: bs) labs := rfl

lemma cutAux_none_of_le {y : Int} : ∀ (bs : List Int) (labs : List String),
    (∀ b ∈ bs, y ≤ b) → cutAux y bs labs = none := by
  intro bs
  induction bs with
  | nil => intro labs _; cases labs <;> rfl
  | cons lo rest ih =>
      intro labs h
      cases rest with
      | nil => cases labs <;> rfl
      | cons hi bs2 =>
          cases labs with
          | nil => rfl
          | cons lab labs2 =>
              rw [cutAux_cons, if_neg]
              · exact ih _ (fun b hb => h b (List.mem_cons_of_mem _ hb))
              · have := h lo (List.mem_cons_self _ _)
                omega

lemma cutAux_none_of_gt {y : Int} : ∀ (bs : List Int) (labs : List String),
    (∀ b ∈ bs, b < y) → cutAux y bs labs = none := by
  intro bs
  induction bs with
  | nil => intro labs _; cases labs <;> rfl
  | cons lo rest ih =>
      intro labs h
      cases rest with
      | nil => cases labs <;> rfl
      | cons hi bs2 =>
          cases labs with
          | nil => rfl
          | cons lab labs2 =>
              rw [cutAux_cons, if_neg]
              · exact ih _ (fun b hb => h b (List.mem_cons_of_mem _ hb))
              · have := h hi (List.mem_cons_of_mem _ (List.mem_cons_self _ _))
                omega

lemma yearBin_out_lo {y : Int} (h : y < 1908) : yearBin y = none := by
  unfold yearBin
  rw [if_neg (by omega)]
  apply cutAux_none_of_le
  intro b hb
  unfold binBoundaries at hb
  fin_cases hb <;> omega

lemma yearBin_out_hi {y : Int} (h : 2024 < y) : yearBin y = none := by
  unfold yearBin
  rw [if_neg (by omega)]
  apply cutAux_none_of_gt
  intro b hb
  unfold binBoundaries at hb
  fin_cases hb <;> omega

lemma yearBinSpecRule_out (y : Int) (h : y < 1908 ∨ 2024 < y) :
    yearBinSpecRule y = none := by
  unfold yearBinSpecRule
  repeat rw [if_neg (by omega)]

lemma yearBin_eq_specRule (y : Int) : yearBin y = yearBinSpecRule y := by
  by_cases h1 : y < 1908
  · rw [yearBin_out_lo h1, yearBinSpecRule_out y (Or.inl h1)]
  by_cases h2 : 2024 < y
  · rw [yearBin_out_hi h2, yearBinSpecRule_out y (Or.inr h2)]
  have hlo : 1908 ≤ y := by omega
  have hhi : y ≤ 2024 := by omega
  interval_cases y <;> decide

end AirCrash

namespace AirCrash

/-- C3: year binning follows the fixed boundaries with right-closed intervals
(label `i` covers `boundary i < year ≤ boundary (i+1)`) and the lowest
boundary 1908 inclusive; year 1920 falls in the first bin "Early 1910s",
year 2025 falls outside every bin (null), and the shared boundary year 2016
resolves to exactly the single label "Early 2000s" (its interval is
`(2004, 2016]`); each row's `year_bin` is this function of its year. -/
theorem year_binning_correct :
    (∀ y : Int, yearBin y = yearBinSpecRule y) ∧
    yearBin 1920 = some "Early 1910s" ∧
    yearBin 2025 = none ∧
    yearBin 2016 = some "Early 2000s" ∧
    (∀ rr : RawRow, (processRow rr).year_bin = rr.year.bind yearBin) :=
  ⟨yearBin_eq_specRule, by decide, by decide, by decide, fun rr => rfl⟩

/-- C4: in every canonical table produced by `load_data`, the three string
fields `country_region`, `operator` and `aircraft_manufacturer` are non-null,
and a missing source value in any of them becomes the literal "Unknown". -/
theorem string_fields_never_null (raw : List RawRow) :
    (∀ row ∈ load_data raw,
        row.country_region ≠ none ∧ row.operator ≠ none ∧
          row.aircraft_manufacturer ≠ none) ∧
    (∀ rr : RawRow, rr.country_region = none →
        (processRow rr).country_region = some "Unknown") ∧
    (∀ rr : RawRow, rr.operator = none →
        (processRow rr).operator = some "Unknown") ∧
    (∀ rr : RawRow, rr.aircraft_manufacturer = none →
        (processRow rr).aircraft_manufacturer = some "Unknown") := by
  refine ⟨?_, ?_, ?_, ?_⟩
  · intro row hrow
    have hmap : row ∈ raw.map processRow := by
      have := hrow
      unfold load_data at this
      exact mem_dropDuplicates.mp this
    rcases List.mem_map.mp hmap with ⟨rr, _, rfl⟩
    exact ⟨by simp [processRow], by simp [processRow], by simp [processRow]⟩
  · intro rr h; simp [processRow, h]
  · intro rr h; simp [processRow, h]
  · intro rr h; simp [processRow, h]

/-- Witness for C4 at a concrete all-null raw row. -/
theorem string_fields_never_null_witness :
    (processRow rawAllNone).country_region = some "Unknown" ∧
    (processRow rawAllNone).operator = some "Unknown" ∧
    (processRow rawAllNone).aircraft_manufacturer = some "Unknown" :=
  ⟨(string_fields_never_null []).2.1 rawAllNone rfl,
   (string_fields_never_null []).2.2.1 rawAllNone rfl,
   (string_fields_never_null []).2.2.2 rawAllNone rfl⟩

/-- C8: `month_num` is the month string looked up in the fixed `month_map`
dictionary; "Feburary" maps to 2, every calendar month name maps to its
number, and any name absent from the dictionary (such as "Marchx") maps to
null rather than raising. -/
theorem month_map_spec :
    (∀ rr : RawRow, (processRow rr).month_num = rr.month.bind monthMap) ∧
    monthMap "Feburary" = some 2 ∧
    monthMap "Marchx" = none ∧
    (∀ i : Fin 12, monthMap (monthNamesCal.get i) = some (i.val + 1)) ∧
    (∀ s : String, s ∉ month_map.map Prod.fst → monthMap s = none) := by
  refine ⟨fun rr => rfl, by decide, by decide, by decide, ?_⟩
  intro s hs
  unfold monthMap
  rw [List.find?_eq_none.mpr]
  · rfl
  · intro p hp
    simp only [beq_iff_eq, ne_eq]
    intro hc
    exact hs (List.mem_map.mpr ⟨p, hp, hc⟩)

/-- Witness for C8: the unknown name "Marchx" is not a dictionary key, and
the theorem yields null for it. -/
theorem month_map_spec_witness : monthMap "Marchx" = none :=
  month_map_spec.2.2.2.2 "Marchx" (by decide)

end AirCrash

namespace AirCrash

/-- C7: filtering with empty selections on every field returns the table
unchanged, and in general a row is kept iff, for each field with a nonempty
selection, the row's value is among the selected values — a conjunction
across fields and a disjunction (membership) within each field. -/
theorem filtered_df_semantics (t : List Row) (p : Predicates) :
    filtered_df t { year := [], quarter := [], month := [] } = t ∧
    (∀ r : Row, r ∈ filtered_df t p ↔ r ∈ t ∧
      (p.year = [] ∨ ∃ y, r.year = some y ∧ y ∈ p.year) ∧
      (p.quarter = [] ∨ ∃ q, r.quarter = some q ∧ q ∈ p.quarter) ∧
      (p.month = [] ∨ ∃ m, r.month = some m ∧ m ∈ p.month)) := by
  constructor
  · simp [filtered_df, matchesField]
  · intro r
    rw [mem_filtered_df]
    unfold rowMatches
    simp only [Bool.and_eq_true, matchesField_iff, and_assoc]

/-- C2 counterexample: filtering a one-row table (year 1985) by
`year ∈ {1977}` yields a filtered view with 0 rows, yet the decade aggregate
of that empty view is NOT an empty result set — the categorical `groupby`
keeps all 11 bins and their empty-group sums are 0, so the trailing
`dropna()` drops nothing. -/
theorem empty_view_decade_not_empty :
    filtered_df exView predYear1977 = [] ∧
    decade_counts (filtered_df exView predYear1977) ≠ [] := by decide

/-- C2 as amended: a predicate set matching no row yields a filtered view
with 0 rows; the top-years, top-countries, monthly and top-manufacturers
aggregates then return empty result sets, while the decade aggregate returns
one entry per bin label — all 11 of them — each with total 0. All
evaluations are total: nothing raises. -/
theorem empty_view_aggregates (t : List Row) (p : Predicates)
    (h : ∀ r ∈ t, rowMatches p r = false) :
    filtered_df t p = [] ∧
    crashes_per_year (filtered_df t p) = [] ∧
    top_countries (filtered_df t p) = [] ∧
    monthly_fatalities (filtered_df t p) = [] ∧
    top_manufacturers (filtered_df t p) = [] ∧
    decade_counts (filtered_df t p) = binLabels.map (fun lab => (lab, 0)) := by
  have hnil : filtered_df t p = [] := filtered_df_eq_nil h
  rw [hnil]
  exact ⟨rfl, by decide, by decide, by decide, by decide, by decide⟩

/-- Witness for C2: the concrete empty view from `year ∈ {1977}` over the
one-row 1985 table. -/
theorem empty_view_aggregates_witness :
    (∀ r ∈ exView, rowMatches predYear1977 r = false) ∧
    filtered_df exView predYear1977 = [] ∧
    crashes_per_year (filtered_df exView predYear1977) = [] ∧
    decade_counts (filtered_df exView predYear1977) =
      binLabels.map (fun lab => (lab, 0)) :=
  ⟨by decide, (empty_view_aggregates exView predYear1977 (by decide)).1,
   (empty_view_aggregates exView predYear1977 (by decide)).2.1,
   (empty_view_aggregates exView predYear1977 (by decide)).2.2.2.2.2⟩

/-- C1 counterexample: on the one-row 1985 table no row falls in the
"Mid 1920s" bin, yet the decade aggregate still contains that bin, with
total 0 — bins with no data are not dropped from the result. -/
theorem decade_counts_keeps_empty_bins :
    (∀ r ∈ exView, ¬(r.year_bin = some "Mid 1920s")) ∧
    ("Mid 1920s", (0 : Int)) ∈ decade_counts exView := by decide

/-- C1 as amended: for every filtered view the decade aggregate has exactly
one entry per bin label, ordered by the fixed 11-label bin sequence (not by
sum); each entry's total is the sum of `fatalities_air` over the rows of
that bin; and a bin with no data is kept with total 0 rather than dropped
(the categorical `groupby` keeps all bins, empty-group sums are 0, and the
trailing `dropna()` therefore removes nothing). -/
theorem decade_counts_order_and_totals (rows : List Row) :
    (decade_counts rows).map Prod.fst = binLabels ∧
    (∀ lab v, (lab, v) ∈ decade_counts rows →
        v = sumFat (rows.filter (fun r => decide (r.year_bin = some lab)))) ∧
    (∀ lab ∈ binLabels, (∀ r ∈ rows, r.year_bin ≠ some lab) →
        (lab, (0 : Int)) ∈ decade_counts rows) := by
  have hdc : decade_counts rows = binLabels.map
      (fun lab => (lab, sumFat (rows.filter (fun r => decide (r.year_bin = some lab))))) := by
    unfold decade_counts
    exact dropnaPairs_map_some _ _
  rw [hdc]
  refine ⟨?_, ?_, ?_⟩
  · rw [List.map_map]
    exact List.map_id _
  · intro lab v hmem
    rcases List.mem_map.mp hmem with ⟨lab2, _, heq⟩
    injection heq with h1 h2
    subst h1
    exact h2.symm
  · intro lab hlab hnone
    have hfil : rows.filter (fun r => decide (r.year_bin = some lab)) = [] := by
      rw [List.filter_eq_nil_iff]
      intro r hr
      simpa using hnone r hr
    refine List.mem_map.mpr ⟨lab, hlab, ?_⟩
    rw [hfil]
    rfl

/-- Witness for C1: the "Mid 1920s" bin has no row in the concrete 1985 view
and is nonetheless present with total 0. -/
theorem decade_counts_order_and_totals_witness :
    ("Mid 1920s", (0 : Int)) ∈ decade_counts exView :=
  (decade_counts_order_and_totals exView).2.2 "Mid 1920s" (by decide) (by decide)

end AirCrash

namespace AirCrash

/-- C5: the top-years aggregate returns at most five entries; they are
ordered descending by summed fatalities; each returned entry is one of the
per-year groups; a group pairs a year that occurs in some row with the sum
of `fatalities_air` over that year's rows; every group left out has a sum no
larger than any returned entry; and on the specification's example sums
{1985: 520, 1977: 346, 2001: 2996, 1988: 270, 1996: 349, 1972: 1} the result
is exactly [2001: 2996, 1985: 520, 1996: 349, 1977: 346, 1988: 270]. -/
theorem crashes_per_year_top5 (rows : List Row) :
    (crashes_per_year rows).length ≤ 5 ∧
    (crashes_per_year rows).Pairwise (fun a b => b.2 ≤ a.2) ∧
    (∀ g ∈ crashes_per_year rows, g ∈ groupSum intLe (fun r => r.year) rows) ∧
    (∀ y v, ((y, v) ∈ groupSum intLe (fun r => r.year) rows ↔
        (∃ r ∈ rows, r.year = some y) ∧
          v = sumFat (rows.filter (fun r => decide (r.year = some y))))) ∧
    (∀ g ∈ groupSum intLe (fun r => r.year) rows,
        g ∉ crashes_per_year rows → ∀ x ∈ crashes_per_year rows, g.2 ≤ x.2) ∧
    crashes_per_year exTop5 =
      [(2001, 2996), (1985, 520), (1996, 349), (1977, 346), (1988, 270)] := by
  refine ⟨nlargest5_length _, nlargest5_pairwise _, ?_, ?_, ?_, by decide⟩
  · intro g hg
    exact mem_of_mem_nlargest5 hg
  · intro y v
    exact mem_groupSum
  · intro g hg hout x hx
    exact nlargest5_min hg hout x hx

/-- Witness for C5: applying the theorem at the concrete example table shows
the head of the returned top-5 is one of the per-year groups. -/
theorem crashes_per_year_top5_witness :
    ((2001 : Int), (2996 : Int)) ∈ groupSum intLe (fun r => r.year) exTop5 :=
  (crashes_per_year_top5 exTop5).2.2.1 (2001, 2996) (by decide)

/-- C6: the monthly aggregate's keys are exactly the calendar months (in
January..December order) for which some row carries that month name — months
with no group are dropped, not emitted as zero or null rows; each returned
total is the sum of `fatalities_air` over the rows of that month; and with
sums present only for October (12) and March (37) the result is exactly
[March: 37, October: 12] in calendar order. -/
theorem monthly_fatalities_calendar (rows : List Row) :
    ((monthly_fatalities rows).map Prod.fst =
      monthNamesCal.filter (fun m => rows.any (fun r => decide (r.month_name = some m)))) ∧
    (∀ m v, (m, v) ∈ monthly_fatalities rows →
      v = sumFat (rows.filter (fun r => decide (r.month_name = some m)))) ∧
    monthly_fatalities exMonths = [("March", 37), ("October", 12)] := by
  refine ⟨?_, ?_, by decide⟩
  · unfold monthly_fatalities reindexCal
    rw [dropnaPairs_keys]
    apply List.filter_congr
    intro m _
    rw [Option.isSome_map']
    exact find?_groupSum_isSome strLe (fun r => r.month_name) rows m
  · intro m v hmv
    unfold monthly_fatalities reindexCal dropnaPairs at hmv
    rcases List.mem_filterMap.mp hmv with ⟨q, hq, hqe⟩
    rcases List.mem_map.mp hq with ⟨m2, _, rfl⟩
    rcases Option.map_eq_some'.mp hqe with ⟨v2, hv2, hpair⟩
    injection hpair with hm hv
    subst hm; subst hv
    rcases Option.map_eq_some'.mp hv2 with ⟨p, hfind, rfl⟩
    have hp1 : p.1 = m2 := by simpa using List.find?_some hfind
    have hpmem := List.mem_of_find?_eq_some hfind
    obtain ⟨k, w⟩ := p
    rcases mem_groupSum.mp hpmem with ⟨_, hsum⟩
    simp only at hp1
    subst hp1
    exact hsum

/-- Witness for C6: applying the theorem at the concrete March/October table
evaluates the March total. -/
theorem monthly_fatalities_calendar_witness :
    (37 : Int) = sumFat (exMonths.filter (fun r => decide (r.month_name = some "March"))) :=
  (monthly_fatalities_calendar exMonths).2.1 "March" 37 (by decide)

/-- C10: rows whose grouping key is null contribute to no group of the
corresponding aggregate — removing them changes nothing: the top-years
aggregate ignores null years, the monthly aggregate ignores null month
names, and the decade aggregate ignores null year bins. -/
theorem null_keys_excluded (rows : List Row) :
    crashes_per_year (rows.filter (fun r => r.year.isSome)) = crashes_per_year rows ∧
    monthly_fatalities (rows.filter (fun r => r.month_name.isSome)) =
      monthly_fatalities rows ∧
    decade_counts (rows.filter (fun r => r.year_bin.isSome)) = decade_counts rows := by
  refine ⟨?_, ?_, ?_⟩
  · unfold crashes_per_year
    exact congrArg nlargest5 (groupSum_filter_isSome intLe (fun r => r.year) rows)
  · unfold monthly_fatalities
    rw [groupSum_filter_isSome strLe (fun r => r.month_name) rows]
  · unfold decade_counts
    simp only [filter_some_filter_isSome (fun r => r.year_bin)]

end AirCrash

namespace AirCrash

/-- C9 counterexample: column-name normalization is NOT idempotent for every
string. In "(\tx" the tab is shielded from the initial trim by the leading
parenthesis; removing parentheses exposes it, so one pass yields "\tx" and a
second pass trims the tab away, yielding "x". -/
theorem normalize_not_idempotent :
    normalizeColName "(\tx" = "\tx" ∧
    normalizeColName (normalizeColName "(\tx") = "x" ∧
    normalizeColName (normalizeColName "(\tx") ≠ normalizeColName "(\tx" := by
  decide

/-- C9 as amended: normalization is idempotent for every column name whose
whitespace characters are all plain spaces (in particular every real header
of this dataset); only a non-space whitespace character hidden behind a
parenthesis breaks idempotence. -/
theorem normalize_idempotent_on_space_ws (s : String)
    (h : ∀ c ∈ s.data, isPyWS c = true → c = ' ') :
    normalizeColName (normalizeColName s) = normalizeColName s :=
  congrArg String.mk (normChars_idem h)

/-- Witness for C9 at the real header "Fatalities (air)". -/
theorem normalize_idempotent_on_space_ws_witness :
    (∀ c ∈ "Fatalities (air)".data, isPyWS c = true → c = ' ') ∧
    normalizeColName (normalizeColName "Fatalities (air)") =
      normalizeColName "Fatalities (air)" :=
  ⟨by decide, normalize_idempotent_on_space_ws "Fatalities (air)" (by decide)⟩

end AirCrash
